import Mathlib

/-!
Verification of the financial-dataframe reconciliation routine
(`src/functions.py`) against its natural-language specification.

The Python source is shallowly embedded: pandas cell values become the
inductive type `CellValue` (missing / numeric / text), Python floats become
exact rationals `ℚ`, a dataframe becomes a list of rows aligned with a list
of column names, and each Python function is translated into an executable
Lean definition carrying the same name where possible.
-/

/-- Python whitespace characters, as removed by `str.strip()`. -/
def isPySpace (c : Char) : Bool :=
  c == ' ' || c == '\t' || c == '\n' || c == '\r' || c == '\x0B' || c == '\x0C'

/-- Model of Python `str.strip()`: drop leading and trailing whitespace. -/
def stripList (l : List Char) : List Char :=
  ((l.dropWhile isPySpace).reverse.dropWhile isPySpace).reverse

/-- Characters kept by the cleaning regex `[^\d\.]` (digits and the decimal point). -/
def isDigitOrDot (c : Char) : Bool :=
  c.isDigit || c == '.'

/-- Numeric value of a list of decimal digit characters (most significant first). -/
def natOfDigits (l : List Char) : Nat :=
  l.foldl (fun a c => 10 * a + (c.toNat - 48)) 0

/-- Model of Python `float()` restricted to the strings that reach it here:
after cleaning, the argument consists only of digits and dots.  Python
accepts such a string exactly when it contains at least one digit and at
most one dot; anything else raises, which the caller catches (modelled as
`none`). -/
def parseFloat? (l : List Char) : Option ℚ :=
  if l.all isDigitOrDot then
    if l.count '.' = 0 then
      if l = [] then none else some ((natOfDigits l : ℚ))
    else if l.count '.' = 1 then
      let ip := l.takeWhile (fun c => c ≠ '.')
      let fp := (l.dropWhile (fun c => c ≠ '.')).tail
      if ip = [] ∧ fp = [] then none
      else some ((natOfDigits ip : ℚ) + (natOfDigits fp : ℚ) / ((10 : ℚ)) ^ fp.length)
    else none
  else none

/-- A pandas cell: missing (`pd.NA`), a float (modelled as `ℚ`), or a string. -/
inductive CellValue where
  | na : CellValue
  | num (q : ℚ) : CellValue
  | str (s : String) : CellValue
deriving DecidableEq, Repr

/-- Decimal digit character for `k < 10`. -/
def digitChar (k : Nat) : Char :=
  if k = 0 then '0' else if k = 1 then '1' else if k = 2 then '2'
  else if k = 3 then '3' else if k = 4 then '4' else if k = 5 then '5'
  else if k = 6 then '6' else if k = 7 then '7' else if k = 8 then '8' else '9'

/-- Decimal digit list of a natural number, with explicit fuel (the fuel
`n + 1` always suffices since `n / 10 < n` for `n ≥ 10`). -/
def natDigitsAux : Nat → Nat → List Char
  | 0, _ => []
  | fuel + 1, n =>
    if n < 10 then [digitChar n]
    else natDigitsAux fuel (n / 10) ++ [digitChar (n % 10)]

/-- Decimal digit list of a natural number, most significant first. -/
def natDigits (n : Nat) : List Char :=
  natDigitsAux (n + 1) n

/-- Left-pad a digit list with zeros to the given width. -/
def padZeros (w : Nat) (ds : List Char) : List Char :=
  List.replicate (w - ds.length) '0' ++ ds

/-- Drop the trailing zero digits of a digit list. -/
def stripTrailingZeros (l : List Char) : List Char :=
  (l.reverse.dropWhile (fun c => c == '0')).reverse

/-- Model of Python `str()` on the float backing a numeric cell.  Writing
the non-zero value as `0.d1d2... * 10 ^ decpt` with `d1 ≠ 0`, CPython
renders positionally (sign, integer digits, a dot, fraction digits, for
example `5 ↦ "5.0"` and `-73/100 ↦ "-0.73"`) when `-4 < decpt ≤ 16`, and
otherwise in scientific notation — mantissa, letter `e`, signed two-digit
exponent `decpt - 1`, for example `1/100000 ↦ "1e-05"` and
`2 * 10 ^ 16 ↦ "2e+16"`.  The letter of the scientific form is an
alphabetic character the text extractor picks up, which is why the engine
is only fragment-free on positionally rendered numbers.  Zero prints as
`"0.0"`; a rational without a finite decimal representation (no float
corresponds to it) falls back to a `num/den` digit rendering. -/
def numStr (q : ℚ) : String :=
  if q = 0 then "0.0"
  else
    let sign : List Char := if q < 0 then ['-'] else []
    let n : Nat := q.num.natAbs
    let d : Nat := q.den
    match (List.range 40).find? (fun k => decide (d ∣ 10 ^ k)) with
    | some k =>
      let m := n * (10 ^ k / d)
      let decpt : Int := ((natDigits m).length : Int) - (k : Int)
      if -4 < decpt ∧ decpt ≤ 16 then
        let ip := m / 10 ^ k
        let fr := m % 10 ^ k
        let frDigits := if k = 0 then ['0'] else padZeros k (natDigits fr)
        String.mk (sign ++ natDigits ip ++ '.' :: frDigits)
      else
        let sig := stripTrailingZeros (natDigits m)
        let mantissa : List Char :=
          match sig with
          | [] => ['0']
          | d1 :: rest => if rest = [] then [d1] else d1 :: '.' :: rest
        let esign : List Char := if decpt - 1 < 0 then ['-'] else ['+']
        let edigits := padZeros 2 (natDigits (decpt - 1).natAbs)
        String.mk (sign ++ mantissa ++ 'e' :: esign ++ edigits)
    | none => String.mk (sign ++ natDigits n ++ '/' :: natDigits d)

/-- Python `str()` of a cell value, as the engine computes `str_val`.
`str(pd.NA)` prints as `"<NA>"`; the engine never reaches that case because
missing cells are skipped first. -/
def strVal : CellValue → String
  | .na => "<NA>"
  | .num q => numStr q
  | .str s => s

/-- Does the pattern match at the head of the list? -/
def leadMatch : List Char → List Char → Bool
  | [], _ => true
  | _ :: _, [] => false
  | p :: ps, c :: cs => p == c && leadMatch ps cs

/-- Substring test: does `pat` occur contiguously inside `l`?  Models the
Python `in` operator on strings. -/
def hasSub (pat : List Char) : List Char → Bool
  | [] => pat.isEmpty
  | l@(_ :: t) => leadMatch pat l || hasSub pat t

/-- Model of Python `str.lower()` (the strings here are ASCII). -/
def lowerStr (s : String) : String :=
  String.mk (s.toList.map Char.toLower)

/-- Source `clean_numeric_value` (src/functions.py lines 66-95): missing
passes through, numbers pass through as floats, and a string is stripped,
checked for a parenthesis wrap marking a negative, reduced to its digits
and dots, and parsed; an empty remainder or a parse failure yields missing. -/
def clean_numeric_value : CellValue → Option ℚ
  | .na => none
  | .num q => some q
  | .str s =>
    let t := stripList s.toList
    let isNeg := t.head? = some '(' ∧ t.getLast? = some ')'
    let t2 := if isNeg then (t.drop 1).dropLast else t
    let cleaned := t2.filter isDigitOrDot
    if cleaned = [] then none
    else
      match parseFloat? cleaned with
      | some q => some (if isNeg then -q else q)
      | none => none

/-- Maximal runs of ASCII alphabetic characters, accumulating the current
run in reverse; models `re.findall` with an alphabetic-run pattern. -/
def alphaRunsAux (acc : List Char) : List Char → List (List Char)
  | [] => if acc = [] then [] else [acc.reverse]
  | c :: t =>
    if c.isAlpha then alphaRunsAux (c :: acc) t
    else if acc = [] then alphaRunsAux [] t
    else acc.reverse :: alphaRunsAux [] t

/-- Maximal alphabetic runs of a character list. -/
def alphaRuns (l : List Char) : List (List Char) :=
  alphaRunsAux [] l

/-- Source `extract_text_content` (lines 98-107) on the stringified value:
remove digits, dots and parentheses, collect the maximal alphabetic runs,
and join them with single spaces. -/
def extract_text_content (s : String) : String :=
  let kept := s.toList.filter (fun c => !(c.isDigit || c == '.' || c == '(' || c == ')'))
  String.intercalate " " ((alphaRuns kept).map String.mk)

/-- Source `find_target_column` (lines 109-116): lower-case the text and
test for the keyword substrings in order. -/
def find_target_column (text : String) : Option String :=
  let t := (lowerStr text).toList
  if hasSub ([ 'l', 't', 'm' ]) t then some ("LTM EBITDA")
  else if hasSub ([ 't', 't', 'm' ]) t then some ("LTM Revenue")
  else none

/-- Source `is_cad_currency` (lines 118-123) on the stringified value (the
missing-value guard in the source is vacuous at its call site, where the
argument is always a string): case-insensitive test for `cad` or `c$`. -/
def is_cad_currency (s : String) : Bool :=
  hasSub ([ 'c', 'a', 'd' ]) (lowerStr s).toList ||
    hasSub ([ 'c', '$' ]) (lowerStr s).toList

attribute [local semireducible] Rat.add Rat.mul Rat.inv Rat.sub Rat.ofScientific

/-- A dataframe: named columns and row-major data.  Each row is aligned
positionally with `cols`. -/
structure DF where
  cols : List String
  data : List (List CellValue)
deriving DecidableEq, Repr

/-- Value of the first column named `name` in a row (missing when the
column is absent or the row is too short). -/
def rowGet : List String → List CellValue → String → CellValue
  | [], _, _ => .na
  | _ :: _, [], _ => .na
  | c :: cs, v :: vs, name => if c = name then v else rowGet cs vs name

/-- Write a value at the first column named `name` in a row (no change when
the column is absent). -/
def rowSet : List String → List CellValue → String → CellValue → List CellValue
  | [], vs, _, _ => vs
  | _ :: _, [], _, _ => []
  | c :: cs, v :: vs, name, x => if c = name then x :: vs else v :: rowSet cs vs name x

/-- Cell at row position `i`, column `c` (missing when out of range). -/
def getCell (df : DF) (i : Nat) (c : String) : CellValue :=
  match df.data.get? i with
  | some row => rowGet df.cols row c
  | none => .na

/-- Overwrite the cell at row position `i`, column `c`. -/
def setCell (df : DF) (i : Nat) (c : String) (v : CellValue) : DF :=
  match df.data.get? i with
  | some row => { df with data := df.data.set i (rowSet df.cols row c v) }
  | none => df

/-- Append a new column whose cells all default to missing
(`df[col] = pd.NA` on a fresh column name). -/
def addCol (df : DF) (c : String) : DF :=
  { cols := df.cols ++ [c], data := df.data.map (fun row => row ++ [.na]) }

/-- Every row has exactly one cell per column. -/
def DF.Aligned (df : DF) : Prop :=
  ∀ row ∈ df.data, row.length = df.cols.length

instance (df : DF) : Decidable df.Aligned := by
  unfold DF.Aligned; infer_instance

/-- One entry of the audit log built by the engine (lines 176-183). -/
structure AuditRecord where
  rowIndex : Nat
  columnName : String
  oldValue : CellValue
  newValue : Option ℚ
  notesAdded : Option String
  migratedToColumn : Option String
deriving DecidableEq, Repr

/-- The cell written back by `df.at[idx, col] = numeric_value`. -/
def cellOfNum : Option ℚ → CellValue
  | none => .na
  | some q => .num q

/-- The canonical name of the annotation column. -/
def notesName : String := "Notes"

/-- The literal currency marker appended to the notes fragments. -/
def cadMarker : String := "originally stored as CAD"

/-- The fragment separator used by the engine. -/
def fragSep : String := "; "

/-- The notes fragments built for one cell (lines 154-158): the
`column: text` fragment when extracted text is non-empty, then the CAD
marker when the currency flag holds. -/
def noteFrags (col extracted : String) (cad : Bool) : List String :=
  (if extracted ≠ "" then [col ++ (": ") ++ extracted] else []) ++
    (if cad then [cadMarker] else [])

/-- The numeric value the engine ends up writing (lines 144-148): the
extracted number, multiplied by the conversion rate when the currency flag
holds — the `pd.notna` guard of line 147 is `Option.map`, which leaves a
missing value missing. -/
def procNumeric (rate : ℚ) (value : CellValue) : Option ℚ :=
  if is_cad_currency (strVal value) then
    (clean_numeric_value value).map (fun q => q * rate)
  else clean_numeric_value value

/-- The Notes-cell update (lines 160-166): when fragments exist, join them
and either start the row's Notes cell or append after the existing content,
separated by `"; "`. -/
def updateNotes (df1 : DF) (idx : Nat) (notes : List String) : DF :=
  if notes ≠ [] then
    let current_notes := getCell df1 idx notesName
    let new_notes := String.intercalate fragSep notes
    if current_notes = CellValue.na then
      setCell df1 idx notesName (.str new_notes)
    else
      setCell df1 idx notesName (.str (strVal current_notes ++ fragSep ++ new_notes))
  else df1

/-- The relocation step (lines 168-173): when a target column was resolved,
ensure it exists (new cells missing) and write the final numeric value into
it for this row. -/
def relocate (df2 : DF) (idx : Nat) (target : Option String) (nv : Option ℚ) : DF :=
  match target with
  | some t =>
    let ensured := if t ∈ df2.cols then df2 else addCol df2 t
    setCell ensured idx t (cellOfNum nv)
  | none => df2

/-- The body of the nested loop (lines 134-183) for a single `(idx, col)`
pair.  `snap` holds the row values captured when `iterrows` began (pandas
materializes all row snapshots at that point), while `df` is the live,
mutated table; `row[col]` reads the snapshot and `df.at` reads and writes
the live table.  A missing raw value is skipped outright.  The audit
field built from `new_notes if notes else None` evaluates the stale
`new_notes` binding only when the fragment list is non-empty, so an empty
fragment list always records an explicit `none`. -/
def processCell (rate : ℚ) (snap : DF) (df : DF) (idx : Nat) (col : String)
    (log : List AuditRecord) : DF × List AuditRecord :=
  let value := getCell snap idx col
  if value = CellValue.na then (df, log)
  else
    let str_val := strVal value
    let extracted_text := extract_text_content str_val
    let is_cad := is_cad_currency str_val
    let numeric_value := procNumeric rate value
    let df1 := setCell df idx col (cellOfNum numeric_value)
    let notes := noteFrags col extracted_text is_cad
    let df2 := updateNotes df1 idx notes
    let target_col := find_target_column extracted_text
    let df3 := relocate df2 idx target_col numeric_value
    (df3, log ++ [{ rowIndex := idx, columnName := col, oldValue := value,
                    newValue := numeric_value,
                    notesAdded :=
                      if notes ≠ [] then some (String.intercalate fragSep notes) else none,
                    migratedToColumn := target_col }])

/-- Source `process_financial_dataframe` (lines 125-187): ensure the Notes
column exists, then run the nested row/column loop, threading the mutated
table and the audit log.  The returned list is the audit table. -/
def process_financial_dataframe (df0 : DF) (columns_to_check : List String)
    (rate : ℚ) : DF × List AuditRecord :=
  let df := if notesName ∈ df0.cols then df0 else addCol df0 notesName
  (List.range df.data.length).foldl
    (fun acc idx =>
      columns_to_check.foldl
        (fun acc2 col => processCell rate df acc2.1 idx col acc2.2) acc)
    (df, [])

/-- Specification-side restatement of the string branch of the numeric
extractor, following the spec text of section 4.1: trim; a parenthesis
wrap marks the value negative and is stripped before digit extraction;
every character that is not a digit or decimal point is discarded; missing
when nothing remains; otherwise parse as float and apply the sign. -/
def cleanStringSpec (s : String) : Option ℚ :=
  let t := stripList s.toList
  if t.head? = some '(' ∧ t.getLast? = some ')' then
    let kept := ((t.drop 1).dropLast).filter isDigitOrDot
    if kept = [] then none else (parseFloat? kept).map (fun q => -q)
  else
    let kept := t.filter isDigitOrDot
    if kept = [] then none else parseFloat? kept

/-- Specification-side restatement of the target-column resolver contract
of section 4.4: lower-case the text and test, in order, for the keyword
substrings, returning the first matching canonical column name. -/
def findTargetSpec (text : String) : Option String :=
  if hasSub ([ 'l', 't', 'm' ]) (lowerStr text).toList then some ("LTM EBITDA")
  else if hasSub ([ 't', 't', 'm' ]) (lowerStr text).toList then some ("LTM Revenue")
  else none

/-- Number of non-missing cells the nested loop processes: one per
`(row, column)` pair whose snapshot value is present. -/
def nonMissingCount (snap : DF) (cols : List String) : Nat :=
  ((List.range snap.data.length).map
    (fun i => cols.countP (fun c => getCell snap i c != CellValue.na))).sum

/-- C1 fails on the code: in the end-to-end run over a one-column table
holding the string value `CAD (100)` with conversion rate 0.73, the cell
ends at `73.0`, not `-73.0`.  The parenthesis-negative rule fires only when
the whole trimmed string is wrapped in parentheses, and this string starts
with `C`. -/
theorem C1_counterexample :
    (getCell (process_financial_dataframe
        { cols := [("Amount")], data := [[CellValue.str ("CAD (100)")]] }
        [("Amount")] ((73 : ℚ)/100)).1 0 ("Amount") = CellValue.num 73)
    ∧ getCell (process_financial_dataframe
        { cols := [("Amount")], data := [[CellValue.str ("CAD (100)")]] }
        [("Amount")] ((73 : ℚ)/100)).1 0 ("Amount") ≠ CellValue.num (-73) := by
  decide

/-- C1 amended: the run converts the cell to positive `73.0` (the
parenthesis wrap is not recognised because the trimmed string is not fully
wrapped), appends the `Amount: CAD` fragment plus the marker
`originally stored as CAD` to the row's Notes cell, relocates nothing, and
logs exactly one audit record showing the converted value. -/
theorem C1_amended_run :
    process_financial_dataframe
        { cols := [("Amount")], data := [[CellValue.str ("CAD (100)")]] }
        [("Amount")] ((73 : ℚ)/100)
      = ({ cols := [("Amount"), ("Notes")],
           data := [[CellValue.num 73,
                     CellValue.str ("Amount: CAD; originally stored as CAD")]] },
         [{ rowIndex := 0, columnName := ("Amount"),
            oldValue := CellValue.str ("CAD (100)"),
            newValue := some 73,
            notesAdded := some ("Amount: CAD; originally stored as CAD"),
            migratedToColumn := none }]) := by
  decide

/-- C2 fails on the code: in a run whose first processed cell produces a
fragment string and whose second produces none, the second audit record's
Notes Added field holds an explicit `none`, not the stale fragment string
of the first cell — the conditional `new_notes if notes else None` never
evaluates the stale binding. -/
theorem C2_counterexample :
    ((process_financial_dataframe
        { cols := [("A"), ("B")], data := [[CellValue.str ("CAD 1"), CellValue.num 5]] }
        [("A"), ("B")] ((73 : ℚ)/100)).2.map (fun r => r.notesAdded))
      = [some ("A: CAD; originally stored as CAD"), none] := by
  decide

/-- C9 fails on the code: the Notes column is created eagerly at the start
of every run, before any cell is examined — here a run that processes no
columns at all, so that no notes fragment is ever appended, still ends with
a Notes column. -/
theorem C9_counterexample :
    process_financial_dataframe
        { cols := [("A")], data := [[CellValue.num 1]] } [] ((73 : ℚ)/100)
      = ({ cols := [("A"), ("Notes")], data := [[CellValue.num 1, CellValue.na]] },
         []) := by
  decide

theorem rowSet_length (cols : List String) (vs : List CellValue) (name : String)
    (x : CellValue) : (rowSet cols vs name x).length = vs.length := by
  induction cols generalizing vs with
  | nil => simp [rowSet]
  | cons c cs ih =>
    cases vs with
    | nil => simp [rowSet]
    | cons v vs =>
      simp only [rowSet]
      split
      · rfl
      · simp [ih]

theorem rowGet_rowSet_self (cols : List String) (vs : List CellValue) (name : String)
    (x : CellValue) (hlen : vs.length = cols.length) (hmem : name ∈ cols) :
    rowGet cols (rowSet cols vs name x) name = x := by
  induction cols generalizing vs with
  | nil => simp at hmem
  | cons c cs ih =>
    cases vs with
    | nil => simp at hlen
    | cons v vs =>
      simp only [rowSet]
      by_cases hc : c = name
      · simp [rowGet, hc]
      · have hmem' : name ∈ cs := by
          rcases List.mem_cons.mp hmem with h | h
          · exact absurd h.symm hc
          · exact h
        simp only [if_neg hc, rowGet]
        exact ih vs (by simpa using hlen) hmem'

theorem rowGet_rowSet_ne (cols : List String) (vs : List CellValue)
    (name name' : String) (x : CellValue) (h : name' ≠ name) :
    rowGet cols (rowSet cols vs name x) name' = rowGet cols vs name' := by
  induction cols generalizing vs with
  | nil => simp [rowSet]
  | cons c cs ih =>
    cases vs with
    | nil => simp [rowSet, rowGet]
    | cons v vs =>
      simp only [rowSet]
      by_cases hc : c = name
      · subst hc
        simp only [rowGet]
        rw [if_neg (fun hx => h hx.symm), if_neg (fun hx => h hx.symm)]
      · simp only [if_neg hc, rowGet]
        by_cases hc' : c = name'
        · rw [if_pos hc', if_pos hc']
        · rw [if_neg hc', if_neg hc']
          exact ih vs

theorem rowGet_append_mem (cols : List String) (vs : List CellValue) (t name : String)
    (x : CellValue) (hmem : name ∈ cols) (hlen : vs.length = cols.length) :
    rowGet (cols ++ [t]) (vs ++ [x]) name = rowGet cols vs name := by
  induction cols generalizing vs with
  | nil => simp at hmem
  | cons c cs ih =>
    cases vs with
    | nil => simp at hlen
    | cons v vs =>
      simp only [List.cons_append, rowGet]
      by_cases hc : c = name
      · rw [if_pos hc, if_pos hc]
      · have hmem' : name ∈ cs := by
          rcases List.mem_cons.mp hmem with h | h
          · exact absurd h.symm hc
          · exact h
        rw [if_neg hc, if_neg hc]
        exact ih vs hmem' (by simpa using hlen)

theorem rowGet_append_new (cols : List String) (vs : List CellValue) (t : String)
    (x : CellValue) (hnot : t ∉ cols) (hlen : vs.length = cols.length) :
    rowGet (cols ++ [t]) (vs ++ [x]) t = x := by
  induction cols generalizing vs with
  | nil =>
    cases vs with
    | nil => simp [rowGet]
    | cons v vs => simp at hlen
  | cons c cs ih =>
    cases vs with
    | nil => simp at hlen
    | cons v vs =>
      simp only [List.cons_append, rowGet]
      have hc : c ≠ t := fun h => hnot (h ▸ List.mem_cons_self c cs)
      rw [if_neg hc]
      exact ih vs (fun h => hnot (List.mem_cons_of_mem _ h)) (by simpa using hlen)

theorem get?_set_self (l : List (List CellValue)) (i : Nat) (a : List CellValue)
    (h : i < l.length) : (l.set i a).get? i = some a := by
  induction l generalizing i with
  | nil => simp at h
  | cons x xs ih =>
    cases i with
    | zero => rfl
    | succ n =>
      simp only [List.set, List.get?]
      exact ih n (by simpa using h)

theorem get?_set_ne (l : List (List CellValue)) (i j : Nat) (a : List CellValue)
    (h : j ≠ i) : (l.set i a).get? j = l.get? j := by
  induction l generalizing i j with
  | nil => simp
  | cons x xs ih =>
    cases i with
    | zero =>
      cases j with
      | zero => exact absurd rfl h
      | succ m => rfl
    | succ n =>
      cases j with
      | zero => rfl
      | succ m =>
        simp only [List.set, List.get?]
        exact ih n m (fun hx => h (by rw [hx]))

theorem setCell_cols (df : DF) (i : Nat) (c : String) (v : CellValue) :
    (setCell df i c v).cols = df.cols := by
  unfold setCell
  cases df.data.get? i <;> rfl

theorem setCell_length (df : DF) (i : Nat) (c : String) (v : CellValue) :
    (setCell df i c v).data.length = df.data.length := by
  unfold setCell
  cases df.data.get? i <;> simp

theorem setCell_aligned (df : DF) (i : Nat) (c : String) (v : CellValue)
    (hA : df.Aligned) : (setCell df i c v).Aligned := by
  unfold setCell
  cases h : df.data.get? i with
  | none => exact hA
  | some row =>
    intro r hr
    rcases List.mem_or_eq_of_mem_set hr with hr' | hr'
    · exact hA r hr'
    · rw [hr', rowSet_length]
      exact hA row (List.get?_mem h)

theorem getCell_setCell_self (df : DF) (i : Nat) (c : String) (v : CellValue)
    (hA : df.Aligned) (hi : i < df.data.length) (hc : c ∈ df.cols) :
    getCell (setCell df i c v) i c = v := by
  unfold setCell getCell
  cases h : df.data.get? i with
  | none =>
    rw [List.get?_eq_none] at h
    omega
  | some row =>
    simp only
    rw [get?_set_self _ _ _ (by simpa using hi)]
    exact rowGet_rowSet_self _ _ _ _ (hA row (List.get?_mem h)) hc

theorem getCell_setCell_ne_col (df : DF) (i j : Nat) (c c' : String) (v : CellValue)
    (h : c' ≠ c) : getCell (setCell df i c v) j c' = getCell df j c' := by
  unfold setCell getCell
  cases hg : df.data.get? i with
  | none => rfl
  | some row =>
    simp only
    by_cases hij : j = i
    · subst hij
      have hj : j < df.data.length := by
        by_contra hx
        rw [List.get?_eq_none.mpr (by omega)] at hg
        exact Option.noConfusion hg
      rw [get?_set_self _ _ _ hj, hg]
      exact rowGet_rowSet_ne _ _ _ _ _ h
    · rw [get?_set_ne _ _ _ _ hij]

theorem getCell_setCell_ne_row (df : DF) (i j : Nat) (c c' : String) (v : CellValue)
    (h : j ≠ i) : getCell (setCell df i c v) j c' = getCell df j c' := by
  unfold setCell getCell
  cases hg : df.data.get? i with
  | none => rfl
  | some row =>
    simp only
    rw [get?_set_ne _ _ _ _ h]

theorem addCol_cols (df : DF) (c : String) : (addCol df c).cols = df.cols ++ [c] := rfl

theorem addCol_length (df : DF) (c : String) :
    (addCol df c).data.length = df.data.length := by
  unfold addCol
  simp

theorem addCol_aligned (df : DF) (c : String) (hA : df.Aligned) :
    (addCol df c).Aligned := by
  unfold addCol
  intro r hr
  rcases List.mem_map.mp hr with ⟨row, hrow, hEq⟩
  simp only [← hEq, List.length_append]
  rw [hA row hrow]
  simp

theorem getCell_addCol_mem (df : DF) (t : String) (i : Nat) (c : String)
    (hA : df.Aligned) (hc : c ∈ df.cols) :
    getCell (addCol df t) i c = getCell df i c := by
  unfold getCell addCol
  simp only [List.get?_map]
  cases h : df.data.get? i with
  | none => rfl
  | some row =>
    simp only [Option.map_some']
    exact rowGet_append_mem _ _ _ _ _ hc (hA row (List.get?_mem h))

theorem find_target_empty : find_target_column "" = none := rfl

/-- C2 amended: for every processed cell whose fragment list is empty, the
audit record's Notes Added field holds an explicit `none`; the previous
iteration's fragment-join variable is never reused, because the guarded
conditional only evaluates it when the current cell produced fragments. -/
theorem C2_amended_explicit_none (rate : ℚ) (snap df : DF) (idx : Nat) (col : String)
    (log : List AuditRecord)
    (hv : getCell snap idx col ≠ CellValue.na)
    (hfr : noteFrags col (extract_text_content (strVal (getCell snap idx col)))
        (is_cad_currency (strVal (getCell snap idx col))) = []) :
    ((processCell rate snap df idx col log).2).map (fun r => r.notesAdded)
      = (log.map fun r => r.notesAdded) ++ [none] := by
  simp only [processCell]
  rw [if_neg hv]
  dsimp only
  rw [hfr]
  simp

theorem updateNotes_cols (df1 : DF) (idx : Nat) (notes : List String) :
    (updateNotes df1 idx notes).cols = df1.cols := by
  simp only [updateNotes]
  split
  · split <;> rw [setCell_cols]
  · rfl

theorem updateNotes_length (df1 : DF) (idx : Nat) (notes : List String) :
    (updateNotes df1 idx notes).data.length = df1.data.length := by
  simp only [updateNotes]
  split
  · split <;> rw [setCell_length]
  · rfl

theorem updateNotes_aligned (df1 : DF) (idx : Nat) (notes : List String)
    (hA : df1.Aligned) : (updateNotes df1 idx notes).Aligned := by
  simp only [updateNotes]
  split
  · split <;> exact setCell_aligned _ _ _ _ hA
  · exact hA

theorem getCell_updateNotes_ne (df1 : DF) (idx j : Nat) (notes : List String)
    (c' : String) (h : c' ≠ notesName) :
    getCell (updateNotes df1 idx notes) j c' = getCell df1 j c' := by
  simp only [updateNotes]
  split
  · split <;> exact getCell_setCell_ne_col _ _ _ _ _ _ h
  · rfl

theorem relocate_aligned (df2 : DF) (idx : Nat) (target : Option String)
    (nv : Option ℚ) (hA : df2.Aligned) : (relocate df2 idx target nv).Aligned := by
  cases target with
  | none => exact hA
  | some t =>
    simp only [relocate]
    split
    · exact setCell_aligned _ _ _ _ hA
    · exact setCell_aligned _ _ _ _ (addCol_aligned _ _ hA)

theorem relocate_length (df2 : DF) (idx : Nat) (target : Option String)
    (nv : Option ℚ) : (relocate df2 idx target nv).data.length = df2.data.length := by
  cases target with
  | none => rfl
  | some t =>
    simp only [relocate]
    split
    · rw [setCell_length]
    · rw [setCell_length, addCol_length]

theorem relocate_read_target (df2 : DF) (idx : Nat) (t : String) (nv : Option ℚ)
    (hA : df2.Aligned) (hi : idx < df2.data.length) :
    getCell (relocate df2 idx (some t) nv) idx t = cellOfNum nv := by
  simp only [relocate]
  split
  case isTrue hmem =>
    exact getCell_setCell_self _ _ _ _ hA hi hmem
  case isFalse hmem =>
    refine getCell_setCell_self _ _ _ _ (addCol_aligned _ _ hA) ?_ ?_
    · rw [addCol_length]; exact hi
    · rw [addCol_cols]
      exact List.mem_append_right _ (List.mem_singleton.mpr rfl)

theorem relocate_read_ne (df2 : DF) (idx j : Nat) (target : Option String)
    (nv : Option ℚ) (c' : String) (hA : df2.Aligned) (hc' : c' ∈ df2.cols)
    (hne : ∀ t, target = some t → c' ≠ t) :
    getCell (relocate df2 idx target nv) j c' = getCell df2 j c' := by
  cases target with
  | none => rfl
  | some t =>
    have hct : c' ≠ t := hne t rfl
    simp only [relocate]
    split
    · exact getCell_setCell_ne_col _ _ _ _ _ _ hct
    · rw [getCell_setCell_ne_col _ _ _ _ _ _ hct]
      exact getCell_addCol_mem _ _ _ _ hA hc'

theorem relocate_mem_cols (df2 : DF) (idx : Nat) (t : String) (nv : Option ℚ) :
    t ∈ (relocate df2 idx (some t) nv).cols := by
  simp only [relocate]
  split
  case isTrue hmem => rw [setCell_cols]; exact hmem
  case isFalse hmem =>
    rw [setCell_cols, addCol_cols]
    exact List.mem_append_right _ (List.mem_singleton.mpr rfl)

theorem relocate_cols_sub (df2 : DF) (idx : Nat) (target : Option String)
    (nv : Option ℚ) : df2.cols ⊆ (relocate df2 idx target nv).cols := by
  cases target with
  | none => exact List.Subset.refl _
  | some t =>
    simp only [relocate]
    split
    · rw [setCell_cols]
      exact List.Subset.refl _
    · rw [setCell_cols, addCol_cols]
      exact List.subset_append_left _ _

theorem find_target_cases (text : String) :
    find_target_column text = none
    ∨ find_target_column text = some ("LTM EBITDA")
    ∨ find_target_column text = some ("LTM Revenue") := by
  simp only [find_target_column]
  split
  · right; left; rfl
  · split
    · right; right; rfl
    · left; rfl

theorem target_ne_notes (text t : String) (h : find_target_column text = some t) :
    t ≠ notesName := by
  rcases find_target_cases text with hc | hc | hc <;> rw [hc] at h
  · exact Option.noConfusion h
  · cases h; decide
  · cases h; decide

theorem processCell_skip (rate : ℚ) (snap df : DF) (idx : Nat) (col : String)
    (log : List AuditRecord) (hv : getCell snap idx col = CellValue.na) :
    processCell rate snap df idx col log = (df, log) := by
  simp only [processCell]
  rw [if_pos hv]

theorem processCell_fst (rate : ℚ) (snap df : DF) (idx : Nat) (col : String)
    (log : List AuditRecord) (hv : getCell snap idx col ≠ CellValue.na) :
    (processCell rate snap df idx col log).1
      = relocate
          (updateNotes
            (setCell df idx col (cellOfNum (procNumeric rate (getCell snap idx col))))
            idx
            (noteFrags col (extract_text_content (strVal (getCell snap idx col)))
              (is_cad_currency (strVal (getCell snap idx col)))))
          idx
          (find_target_column (extract_text_content (strVal (getCell snap idx col))))
          (procNumeric rate (getCell snap idx col)) := by
  simp only [processCell]
  rw [if_neg hv]

theorem processCell_snd (rate : ℚ) (snap df : DF) (idx : Nat) (col : String)
    (log : List AuditRecord) (hv : getCell snap idx col ≠ CellValue.na) :
    (processCell rate snap df idx col log).2
      = log ++
        [{ rowIndex := idx, columnName := col,
           oldValue := getCell snap idx col,
           newValue := procNumeric rate (getCell snap idx col),
           notesAdded :=
             if noteFrags col (extract_text_content (strVal (getCell snap idx col)))
                 (is_cad_currency (strVal (getCell snap idx col))) ≠ [] then
               some (String.intercalate fragSep
                 (noteFrags col (extract_text_content (strVal (getCell snap idx col)))
                   (is_cad_currency (strVal (getCell snap idx col)))))
             else none,
           migratedToColumn :=
             find_target_column (extract_text_content (strVal (getCell snap idx col))) }] := by
  simp only [processCell]
  rw [if_neg hv]

theorem processCell_aligned (rate : ℚ) (snap df : DF) (idx : Nat) (col : String)
    (log : List AuditRecord) (hA : df.Aligned) :
    (processCell rate snap df idx col log).1.Aligned := by
  by_cases hv : getCell snap idx col = CellValue.na
  · rw [processCell_skip _ _ _ _ _ _ hv]; exact hA
  · rw [processCell_fst _ _ _ _ _ _ hv]
    exact relocate_aligned _ _ _ _
      (updateNotes_aligned _ _ _ (setCell_aligned _ _ _ _ hA))

theorem processCell_length (rate : ℚ) (snap df : DF) (idx : Nat) (col : String)
    (log : List AuditRecord) :
    (processCell rate snap df idx col log).1.data.length = df.data.length := by
  by_cases hv : getCell snap idx col = CellValue.na
  · rw [processCell_skip _ _ _ _ _ _ hv]
  · rw [processCell_fst _ _ _ _ _ _ hv,
        relocate_length, updateNotes_length, setCell_length]

theorem processCell_cols_sub (rate : ℚ) (snap df : DF) (idx : Nat) (col : String)
    (log : List AuditRecord) : df.cols ⊆ (processCell rate snap df idx col log).1.cols := by
  by_cases hv : getCell snap idx col = CellValue.na
  · rw [processCell_skip _ _ _ _ _ _ hv]
    exact List.Subset.refl _
  · rw [processCell_fst _ _ _ _ _ _ hv]
    intro x hx
    apply relocate_cols_sub
    rw [updateNotes_cols, setCell_cols]
    exact hx

theorem getCell_relocate_updateNotes (df1 : DF) (idx : Nat) (notes : List String)
    (target : Option String) (nv : Option ℚ) (col : String)
    (hA1 : df1.Aligned) (hi1 : idx < df1.data.length) (hc1 : col ∈ df1.cols)
    (hcol : col ≠ notesName) :
    getCell (relocate (updateNotes df1 idx notes) idx target nv) idx col
      = if target = some col then cellOfNum nv else getCell df1 idx col := by
  have hA2 : (updateNotes df1 idx notes).Aligned := updateNotes_aligned _ _ _ hA1
  have hi2 : idx < (updateNotes df1 idx notes).data.length := by
    rw [updateNotes_length]; exact hi1
  have hc2 : col ∈ (updateNotes df1 idx notes).cols := by
    rw [updateNotes_cols]; exact hc1
  by_cases ht : target = some col
  · rw [ht, if_pos rfl]
    exact relocate_read_target _ _ _ _ hA2 hi2
  · rw [if_neg ht,
        relocate_read_ne _ _ _ _ _ _ hA2 hc2 (fun t htt hct => ht (by rw [htt, hct]))]
    exact getCell_updateNotes_ne _ _ _ _ _ hcol

theorem processCell_getCell_col (rate : ℚ) (snap df : DF) (idx : Nat) (col : String)
    (log : List AuditRecord) (hA : df.Aligned) (hi : idx < df.data.length)
    (hc : col ∈ df.cols) (hcol : col ≠ notesName)
    (hv : getCell snap idx col ≠ CellValue.na) :
    getCell (processCell rate snap df idx col log).1 idx col
      = cellOfNum (procNumeric rate (getCell snap idx col)) := by
  rw [processCell_fst _ _ _ _ _ _ hv,
      getCell_relocate_updateNotes _ _ _ _ _ _ (setCell_aligned _ _ _ _ hA)
        (by rw [setCell_length]; exact hi) (by rw [setCell_cols]; exact hc) hcol]
  split
  · rfl
  · exact getCell_setCell_self _ _ _ _ hA hi hc

theorem processCell_getCell_target (rate : ℚ) (snap df : DF) (idx : Nat)
    (col : String) (log : List AuditRecord) (t : String)
    (hA : df.Aligned) (hi : idx < df.data.length)
    (hv : getCell snap idx col ≠ CellValue.na)
    (ht : find_target_column (extract_text_content (strVal (getCell snap idx col))) = some t) :
    getCell (processCell rate snap df idx col log).1 idx t
      = cellOfNum (procNumeric rate (getCell snap idx col))
    ∧ t ∈ (processCell rate snap df idx col log).1.cols := by
  rw [processCell_fst _ _ _ _ _ _ hv, ht]
  constructor
  · exact relocate_read_target _ _ _ _
      (updateNotes_aligned _ _ _ (setCell_aligned _ _ _ _ hA))
      (by rw [updateNotes_length, setCell_length]; exact hi)
  · exact relocate_mem_cols _ _ _ _

/-- C3: for every processed cell flagged as CAD whose extracted numeric
value is present, the engine multiplies by the conversion rate before the
cell write, before relocation, and before the audit record is built — the
written cell, the audit record's New Value field, and any relocation
destination all hold the converted value. -/
theorem C3_conversion_applied_before_audit (rate : ℚ) (snap df : DF) (idx : Nat)
    (col : String) (log : List AuditRecord) (q : ℚ)
    (hA : df.Aligned) (hi : idx < df.data.length) (hc : col ∈ df.cols)
    (hcol : col ≠ notesName)
    (hcad : is_cad_currency (strVal (getCell snap idx col)) = true)
    (hq : clean_numeric_value (getCell snap idx col) = some q) :
    getCell (processCell rate snap df idx col log).1 idx col = CellValue.num (q * rate)
    ∧ ((processCell rate snap df idx col log).2).map (fun r => r.newValue)
        = (log.map fun r => r.newValue) ++ [some (q * rate)]
    ∧ ∀ t, find_target_column (extract_text_content (strVal (getCell snap idx col))) = some t
        → getCell (processCell rate snap df idx col log).1 idx t = CellValue.num (q * rate) := by
  have hv : getCell snap idx col ≠ CellValue.na := by
    intro h
    rw [h] at hq
    simp [clean_numeric_value] at hq
  have hnv : procNumeric rate (getCell snap idx col) = some (q * rate) := by
    unfold procNumeric
    rw [hcad, hq]
    simp
  refine ⟨?_, ?_, ?_⟩
  · rw [processCell_getCell_col _ _ _ _ _ _ hA hi hc hcol hv, hnv]
    rfl
  · rw [processCell_snd _ _ _ _ _ _ hv]
    simp [hnv]
  · intro t htt
    rw [(processCell_getCell_target _ _ _ _ _ _ t hA hi hv htt).1, hnv]
    rfl

/-- C3 witness: the single-cell table holding `CAD 200` at rate 0.73:
the currency flag holds, the extracted numeric value is 200, and the
processed cell and audit record both show `200 * 0.73 = 146`. -/
theorem C3_witness :
    is_cad_currency (strVal (getCell
        { cols := [("Amount")], data := [[CellValue.str ("CAD 200")]] } 0 ("Amount")))
      = true
    ∧ getCell (processCell ((73 : ℚ)/100)
        { cols := [("Amount")], data := [[CellValue.str ("CAD 200")]] }
        { cols := [("Amount")], data := [[CellValue.str ("CAD 200")]] }
        0 ("Amount") []).1 0 ("Amount") = CellValue.num 146 := by
  constructor
  · decide
  · have h := C3_conversion_applied_before_audit ((73 : ℚ)/100)
      { cols := [("Amount")], data := [[CellValue.str ("CAD 200")]] }
      { cols := [("Amount")], data := [[CellValue.str ("CAD 200")]] }
      0 ("Amount") [] 200 (by decide) (by decide) (by decide) (by decide)
      (by decide) (by decide)
    rw [h.1]
    norm_num

/-- C4: for every processed cell whose extracted text resolves to a target
column, the final numeric value is written both into the original column
and into the destination column (which is created when absent); the
original column keeps the value — duplication, not a move. -/
theorem C4_duplicates_value_into_target (rate : ℚ) (snap df : DF) (idx : Nat)
    (col : String) (log : List AuditRecord) (t : String)
    (hA : df.Aligned) (hi : idx < df.data.length) (hc : col ∈ df.cols)
    (hcol : col ≠ notesName) (hv : getCell snap idx col ≠ CellValue.na)
    (ht : find_target_column (extract_text_content (strVal (getCell snap idx col))) = some t) :
    getCell (processCell rate snap df idx col log).1 idx col
        = cellOfNum (procNumeric rate (getCell snap idx col))
    ∧ getCell (processCell rate snap df idx col log).1 idx t
        = cellOfNum (procNumeric rate (getCell snap idx col))
    ∧ t ∈ (processCell rate snap df idx col log).1.cols := by
  refine ⟨processCell_getCell_col _ _ _ _ _ _ hA hi hc hcol hv, ?_, ?_⟩
  · exact (processCell_getCell_target _ _ _ _ _ _ t hA hi hv ht).1
  · exact (processCell_getCell_target _ _ _ _ _ _ t hA hi hv ht).2

/-- C4 witness: the cell `LTM 50` resolves to the `LTM EBITDA` target:
after processing, both the original column and the created target column
hold `50.0`. -/
theorem C4_witness :
    find_target_column (extract_text_content (strVal (getCell
        { cols := [("Amount")], data := [[CellValue.str ("LTM 50")]] } 0 ("Amount"))))
      = some ("LTM EBITDA")
    ∧ getCell (processCell ((73 : ℚ)/100)
        { cols := [("Amount")], data := [[CellValue.str ("LTM 50")]] }
        { cols := [("Amount")], data := [[CellValue.str ("LTM 50")]] }
        0 ("Amount") []).1 0 ("Amount") = CellValue.num 50
    ∧ getCell (processCell ((73 : ℚ)/100)
        { cols := [("Amount")], data := [[CellValue.str ("LTM 50")]] }
        { cols := [("Amount")], data := [[CellValue.str ("LTM 50")]] }
        0 ("Amount") []).1 0 ("LTM EBITDA") = CellValue.num 50 := by
  have h := C4_duplicates_value_into_target ((73 : ℚ)/100)
    { cols := [("Amount")], data := [[CellValue.str ("LTM 50")]] }
    { cols := [("Amount")], data := [[CellValue.str ("LTM 50")]] }
    0 ("Amount") [] ("LTM EBITDA") (by decide) (by decide) (by decide) (by decide)
    (by decide) (by decide)
  refine ⟨by decide, ?_, ?_⟩
  · rw [h.1]
    decide
  · rw [h.2.1]
    decide

theorem processCell_log_length (rate : ℚ) (snap df : DF) (idx : Nat) (col : String)
    (log : List AuditRecord) :
    ((processCell rate snap df idx col log).2).length
      = log.length + (if getCell snap idx col = CellValue.na then 0 else 1) := by
  by_cases hv : getCell snap idx col = CellValue.na
  · rw [processCell_skip _ _ _ _ _ _ hv, if_pos hv]
    rfl
  · rw [processCell_snd _ _ _ _ _ _ hv, if_neg hv]
    simp

theorem innerFold_length (rate : ℚ) (snap : DF) (idx : Nat) :
    ∀ (cols : List String) (acc : DF × List AuditRecord),
    ((cols.foldl (fun acc2 col => processCell rate snap acc2.1 idx col acc2.2) acc).2).length
      = acc.2.length + cols.countP (fun c => getCell snap idx c != CellValue.na) := by
  intro cols
  induction cols with
  | nil => intro acc; simp
  | cons c cs ih =>
    intro acc
    simp only [List.foldl_cons]
    rw [ih, processCell_log_length, List.countP_cons]
    by_cases hv : getCell snap idx c = CellValue.na
    · simp [hv]
    · have hb : (getCell snap idx c != CellValue.na) = true := bne_iff_ne.mpr hv
      rw [if_neg hv, hb, if_pos rfl]
      omega

theorem outerFold_length (rate : ℚ) (snap : DF) (cols : List String) :
    ∀ (idxs : List Nat) (acc : DF × List AuditRecord),
    ((idxs.foldl
        (fun acc idx => cols.foldl
          (fun acc2 col => processCell rate snap acc2.1 idx col acc2.2) acc) acc).2).length
      = acc.2.length
        + (idxs.map (fun i => cols.countP (fun c => getCell snap i c != CellValue.na))).sum := by
  intro idxs
  induction idxs with
  | nil => intro acc; simp
  | cons i is ih =>
    intro acc
    simp only [List.foldl_cons, List.map_cons, List.sum_cons]
    rw [ih, innerFold_length]
    omega

/-- C5: a missing raw value is skipped outright — no audit record and no
table mutation — and the audit table of a full run holds exactly one record
per non-missing `(row, column)` pair of the snapshot the loop iterates
over. -/
theorem C5_skip_and_audit_count (rate : ℚ) :
    (∀ (snap df : DF) (idx : Nat) (col : String) (log : List AuditRecord),
      getCell snap idx col = CellValue.na →
      processCell rate snap df idx col log = (df, log))
    ∧ ∀ (df : DF) (cols : List String),
        ((process_financial_dataframe df cols rate).2).length
          = nonMissingCount (if notesName ∈ df.cols then df else addCol df notesName) cols := by
  constructor
  · intro snap df idx col log hv
    exact processCell_skip _ _ _ _ _ _ hv
  · intro df cols
    simp only [process_financial_dataframe]
    rw [outerFold_length]
    simp [nonMissingCount]

/-- C5 witness: in a two-cell column with one missing cell, the skip branch
returns the table and log unchanged, and a full run over a one-missing-one
-present table logs exactly one record. -/
theorem C5_witness :
    getCell { cols := [("A")], data := [[CellValue.na], [CellValue.num 4]] } 0 ("A")
      = CellValue.na
    ∧ processCell ((73 : ℚ)/100)
        { cols := [("A")], data := [[CellValue.na], [CellValue.num 4]] }
        { cols := [("A")], data := [[CellValue.na], [CellValue.num 4]] } 0 ("A") []
      = ({ cols := [("A")], data := [[CellValue.na], [CellValue.num 4]] }, [])
    ∧ ((process_financial_dataframe
          { cols := [("A")], data := [[CellValue.na], [CellValue.num 4]] }
          [("A")] ((73 : ℚ)/100)).2).length
      = nonMissingCount
          (if notesName ∈ ({ cols := [("A")], data := [[CellValue.na], [CellValue.num 4]] } : DF).cols
           then { cols := [("A")], data := [[CellValue.na], [CellValue.num 4]] }
           else addCol { cols := [("A")], data := [[CellValue.na], [CellValue.num 4]] } notesName)
          [("A")] := by
  refine ⟨by decide, ?_, ?_⟩
  · exact (C5_skip_and_audit_count ((73 : ℚ)/100)).1
      { cols := [("A")], data := [[CellValue.na], [CellValue.num 4]] }
      { cols := [("A")], data := [[CellValue.na], [CellValue.num 4]] } 0 ("A") [] (by decide)
  · exact (C5_skip_and_audit_count ((73 : ℚ)/100)).2
      { cols := [("A")], data := [[CellValue.na], [CellValue.num 4]] } [("A")]

theorem getCell_updateNotes_read (df1 : DF) (idx : Nat) (notes : List String)
    (s0 : String) (hA1 : df1.Aligned) (hi1 : idx < df1.data.length)
    (hn : notesName ∈ df1.cols) (hcur : getCell df1 idx notesName = CellValue.str s0)
    (hne : notes ≠ []) :
    getCell (updateNotes df1 idx notes) idx notesName
      = CellValue.str (s0 ++ fragSep ++ String.intercalate fragSep notes) := by
  simp only [updateNotes]
  rw [if_pos hne, hcur]
  rw [if_neg (by simp)]
  rw [getCell_setCell_self _ _ _ _ hA1 hi1 hn]
  rfl

theorem process_notes_col_exists (df : DF) (cols : List String) (rate : ℚ) :
    notesName ∈ (process_financial_dataframe df cols rate).1.cols := by
  simp only [process_financial_dataframe]
  set snap := if notesName ∈ df.cols then df else addCol df notesName with hsnap
  have hstart : notesName ∈ snap.cols := by
    rw [hsnap]
    split
    case isTrue h => exact h
    case isFalse h =>
      rw [addCol_cols]
      exact List.mem_append_right _ (List.mem_singleton.mpr rfl)
  have inner : ∀ (cs : List String) (i : Nat) (acc : DF × List AuditRecord),
      notesName ∈ acc.1.cols →
      notesName ∈ ((cs.foldl (fun acc2 col => processCell rate snap acc2.1 i col acc2.2)
        acc).1).cols := by
    intro cs
    induction cs with
    | nil => intro i acc h; exact h
    | cons c cs' ih =>
      intro i acc h
      simp only [List.foldl_cons]
      exact ih i _ (processCell_cols_sub rate snap acc.1 i c acc.2 h)
  have outer : ∀ (idxs : List Nat) (acc : DF × List AuditRecord),
      notesName ∈ acc.1.cols →
      notesName ∈ ((idxs.foldl (fun acc idx => cols.foldl
        (fun acc2 col => processCell rate snap acc2.1 idx col acc2.2) acc) acc).1).cols := by
    intro idxs
    induction idxs with
    | nil => intro acc h; exact h
    | cons i is ih =>
      intro acc h
      simp only [List.foldl_cons]
      exact ih _ (inner cols i acc h)
  exact outer _ _ hstart

/-- C9 amended: the Notes column is created eagerly at the start of every
run when absent (so it exists after every run, fragments or not), and once
present it is only concatenated to, never overwritten: a processed cell
whose fragment list is non-empty appends the `"; "`-joined fragments after
the row's existing Notes content. -/
theorem C9_amended_eager_and_append_only :
    (∀ (df : DF) (cols : List String) (rate : ℚ),
      notesName ∈ (process_financial_dataframe df cols rate).1.cols)
    ∧ ∀ (rate : ℚ) (snap df : DF) (idx : Nat) (col : String) (log : List AuditRecord)
        (s0 : String),
      df.Aligned → idx < df.data.length → notesName ∈ df.cols → col ≠ notesName →
      getCell snap idx col ≠ CellValue.na →
      getCell df idx notesName = CellValue.str s0 →
      noteFrags col (extract_text_content (strVal (getCell snap idx col)))
          (is_cad_currency (strVal (getCell snap idx col))) ≠ [] →
      getCell (processCell rate snap df idx col log).1 idx notesName
        = CellValue.str (s0 ++ fragSep ++ String.intercalate fragSep
            (noteFrags col (extract_text_content (strVal (getCell snap idx col)))
              (is_cad_currency (strVal (getCell snap idx col))))) := by
  constructor
  · exact process_notes_col_exists
  · intro rate snap df idx col log s0 hA hi hn hcol hv hcur hne
    rw [processCell_fst _ _ _ _ _ _ hv]
    have hA1 : (setCell df idx col
        (cellOfNum (procNumeric rate (getCell snap idx col)))).Aligned :=
      setCell_aligned _ _ _ _ hA
    have hi1 : idx < (setCell df idx col
        (cellOfNum (procNumeric rate (getCell snap idx col)))).data.length := by
      rw [setCell_length]; exact hi
    have hn1 : notesName ∈ (setCell df idx col
        (cellOfNum (procNumeric rate (getCell snap idx col)))).cols := by
      rw [setCell_cols]; exact hn
    have hcur1 : getCell (setCell df idx col
        (cellOfNum (procNumeric rate (getCell snap idx col)))) idx notesName
        = CellValue.str s0 := by
      rw [getCell_setCell_ne_col _ _ _ _ _ _ (fun h => hcol h.symm)]
      exact hcur
    rw [relocate_read_ne _ _ _ _ _ _
        (updateNotes_aligned _ _ _ hA1)
        (by rw [updateNotes_cols]; exact hn1)
        (fun t htt => (target_ne_notes _ _ htt).symm)]
    exact getCell_updateNotes_read _ _ _ _ hA1 hi1 hn1 hcur1 hne

/-- C9 amended witness: a row whose Notes cell already holds text gains the
new fragment after a `"; "` separator, and the run of the eager-creation
part on a table without a Notes column ends with one. -/
theorem C9_amended_witness :
    notesName ∈ (process_financial_dataframe (DF.mk [("A")] [[CellValue.num 1]]) []
        ((73 : ℚ)/100)).1.cols
    ∧ getCell (processCell ((73 : ℚ)/100)
        (DF.mk [("A"), ("Notes")] [[CellValue.str ("CAD 1"), CellValue.str ("old note")]])
        (DF.mk [("A"), ("Notes")] [[CellValue.str ("CAD 1"), CellValue.str ("old note")]])
        0 ("A") []).1 0 notesName
      = CellValue.str (("old note") ++ fragSep ++ String.intercalate fragSep
          (noteFrags ("A")
            (extract_text_content (strVal (getCell
              (DF.mk [("A"), ("Notes")] [[CellValue.str ("CAD 1"), CellValue.str ("old note")]])
              0 ("A"))))
            (is_cad_currency (strVal (getCell
              (DF.mk [("A"), ("Notes")] [[CellValue.str ("CAD 1"), CellValue.str ("old note")]])
              0 ("A")))))) := by
  constructor
  · exact C9_amended_eager_and_append_only.1 (DF.mk [("A")] [[CellValue.num 1]]) []
      ((73 : ℚ)/100)
  · exact C9_amended_eager_and_append_only.2 ((73 : ℚ)/100)
      (DF.mk [("A"), ("Notes")] [[CellValue.str ("CAD 1"), CellValue.str ("old note")]])
      (DF.mk [("A"), ("Notes")] [[CellValue.str ("CAD 1"), CellValue.str ("old note")]])
      0 ("A") [] ("old note") (by decide) (by decide) (by decide) (by decide)
      (by decide) (by decide) (by decide)

theorem parseFloat?_nonneg (l : List Char) (q : ℚ) (h : parseFloat? l = some q) :
    0 ≤ q := by
  simp only [parseFloat?] at h
  split_ifs at h <;> try exact Option.noConfusion h
  · cases h
    positivity
  · cases h
    positivity

/-- C6: the string branch of the numeric extractor follows the stated
algorithm — trim, parenthesis wrap marks negative and is stripped first,
non-digit non-dot characters are discarded, an empty remainder is missing,
otherwise the float parse with the sign applied — and the two stated
examples evaluate as claimed. -/
theorem C6_clean_numeric_value_contract :
    (∀ s : String, clean_numeric_value (CellValue.str s) = cleanStringSpec s)
    ∧ clean_numeric_value (CellValue.str ("(1,234.5)")) = some ((-2469 : ℚ)/2)
    ∧ clean_numeric_value (CellValue.str ("CAD 500")) = some 500 := by
  refine ⟨?_, by decide, by decide⟩
  intro s
  simp only [clean_numeric_value, cleanStringSpec]
  by_cases hw : (stripList s.toList).head? = some '('
      ∧ (stripList s.toList).getLast? = some ')'
  · simp only [if_pos hw]
    by_cases hk : ((stripList s.toList).drop 1).dropLast.filter isDigitOrDot = []
    · simp only [if_pos hk]
    · simp only [if_neg hk]
      cases parseFloat? (((stripList s.toList).drop 1).dropLast.filter isDigitOrDot) <;> rfl
  · simp only [if_neg hw]
    by_cases hk : (stripList s.toList).filter isDigitOrDot = []
    · simp only [if_pos hk]
    · simp only [if_neg hk]
      cases parseFloat? ((stripList s.toList).filter isDigitOrDot) <;> rfl

/-- C7: the target-column resolver follows the stated contract — lower-case
then test, in order, for the `ltm` and `ttm` substrings — and in particular
the `ltm` branch wins whenever both keywords are present, as in the stated
tie-break example. -/
theorem C7_find_target_contract :
    (∀ text : String, find_target_column text = findTargetSpec text)
    ∧ (∀ text : String,
        hasSub ([ 'l', 't', 'm' ]) (lowerStr text).toList = true →
        hasSub ([ 't', 't', 'm' ]) (lowerStr text).toList = true →
        find_target_column text = some ("LTM EBITDA"))
    ∧ find_target_column ("ltm and ttm present") = some ("LTM EBITDA") := by
  refine ⟨fun text => rfl, ?_, by decide⟩
  intro text h1 h2
  simp only [find_target_column]
  rw [if_pos h1]

/-- C7 witness: the tie-break example contains both keywords and resolves
to the `ltm` target. -/
theorem C7_witness :
    hasSub ([ 'l', 't', 'm' ]) (lowerStr ("ltm and ttm present")).toList = true
    ∧ hasSub ([ 't', 't', 'm' ]) (lowerStr ("ltm and ttm present")).toList = true
    ∧ find_target_column ("ltm and ttm present") = some ("LTM EBITDA") := by
  refine ⟨by decide, by decide, ?_⟩
  exact C7_find_target_contract.2.1 ("ltm and ttm present") (by decide) (by decide)

/-- C10: a leading minus sign is discarded like any other non-digit
character — a string whose trimmed form is a minus sign followed by a
parsable digit-and-dot literal cleans to the positive value of the digits —
and a negative result can only come from a parenthesis-wrapped string. -/
theorem C10_leading_minus_sign_lost :
    (∀ (s : String) (ds : List Char) (q : ℚ),
      stripList s.toList = '-' :: ds →
      (∀ c ∈ ds, isDigitOrDot c = true) →
      parseFloat? ds = some q →
      clean_numeric_value (CellValue.str s) = some q ∧ 0 ≤ q)
    ∧ ∀ (s : String) (q : ℚ),
        clean_numeric_value (CellValue.str s) = some q → q < 0 →
        (stripList s.toList).head? = some '('
          ∧ (stripList s.toList).getLast? = some ')' := by
  constructor
  · intro s ds q hstrip hall hparse
    refine ⟨?_, parseFloat?_nonneg _ _ hparse⟩
    have hw : ¬((stripList s.toList).head? = some '('
        ∧ (stripList s.toList).getLast? = some ')') := by
      rw [hstrip]
      rintro ⟨h1, _⟩
      simp at h1
    have hfil : (stripList s.toList).filter isDigitOrDot = ds := by
      rw [hstrip]
      rw [List.filter_cons_of_neg (by decide)]
      exact List.filter_eq_self.mpr hall
    have hds : ds ≠ [] := by
      intro h
      rw [h] at hparse
      exact Option.noConfusion hparse
    simp only [clean_numeric_value]
    simp only [if_neg hw]
    rw [hfil, if_neg hds, hparse]
  · intro s q hclean hneg
    by_contra hw
    simp only [clean_numeric_value] at hclean
    simp only [if_neg hw] at hclean
    by_cases hk : (stripList s.toList).filter isDigitOrDot = []
    · rw [if_pos hk] at hclean
      exact Option.noConfusion hclean
    · rw [if_neg hk] at hclean
      cases hp : parseFloat? ((stripList s.toList).filter isDigitOrDot) with
      | none =>
        rw [hp] at hclean
        exact Option.noConfusion hclean
      | some q' =>
        rw [hp] at hclean
        cases hclean
        exact absurd hneg (not_lt.mpr (parseFloat?_nonneg _ _ hp))

/-- C10 witness: the string `-5` cleans to positive `5.0`, and the
parenthesis-wrapped `(3)` is the shape that produces the negative `-3.0`. -/
theorem C10_witness :
    (stripList ("-5").toList = '-' :: [ '5' ]
      ∧ clean_numeric_value (CellValue.str ("-5")) = some 5 ∧ (0 : ℚ) ≤ 5)
    ∧ (clean_numeric_value (CellValue.str ("(3)")) = some (-3)
      ∧ (stripList ("(3)").toList).head? = some '('
      ∧ (stripList ("(3)").toList).getLast? = some ')') := by
  constructor
  · refine ⟨by decide, ?_⟩
    have h := C10_leading_minus_sign_lost.1 ("-5") ([ '5' ]) 5 (by decide)
      (by decide) (by decide)
    exact ⟨h.1, h.2⟩
  · refine ⟨by decide, ?_⟩
    exact C10_leading_minus_sign_lost.2 ("(3)") (-3) (by decide) (by decide)

/-- C2 amended witness: processing the pure numeric cell 5 produces no
fragments, and its audit record's Notes Added field is an explicit
`none`. -/
theorem C2_amended_witness :
    getCell (DF.mk [("B")] [[CellValue.num 5]]) 0 ("B") ≠ CellValue.na
    ∧ noteFrags ("B")
        (extract_text_content (strVal (getCell (DF.mk [("B")] [[CellValue.num 5]]) 0 ("B"))))
        (is_cad_currency (strVal (getCell (DF.mk [("B")] [[CellValue.num 5]]) 0 ("B")))) = []
    ∧ ((processCell ((73 : ℚ)/100) (DF.mk [("B")] [[CellValue.num 5]])
          (DF.mk [("B")] [[CellValue.num 5]]) 0 ("B") []).2).map (fun r => r.notesAdded)
      = ([] : List AuditRecord).map (fun r => r.notesAdded) ++ [none] := by
  refine ⟨by decide, by decide, ?_⟩
  exact C2_amended_explicit_none ((73 : ℚ)/100) (DF.mk [("B")] [[CellValue.num 5]])
    (DF.mk [("B")] [[CellValue.num 5]]) 0 ("B") [] (by decide) (by decide)
